import Mathlib

/-!
Verification of the enrichment algorithms of the japanese_anki_generator
repository (src/main.py, src/pitch_accent.py), as a shallow embedding.

Text is modelled as `List Char` (Python indexes strings by code point);
keys and payloads that the code never indexes into stay `String`.

Note on literals: the Japanese string literals of src/main.py are stored
mojibake-encoded (the original UTF-8 byte stream was decoded as cp1254 and
re-encoded; the seven cp1254-undefined bytes 0x81, 0x8D, 0x8E, 0x8F, 0x90,
0x9D, 0x9E were dropped).  The definitions below use the repaired literals:
the cp1254 step is reversed exactly, and the few dropped bytes are restored
from the standard Japanese conjugation/kana inventory that the surrounding
code and comments fix uniquely.
-/

namespace JA

/-! ## Mora segmentation (pitch_accent.py `split_morae`,
    main.py `PitchAccentAPI.split_morae`) -/

/-- Small-kana set of `split_morae` in pitch_accent.py (line 64):
`'ゃゅょャュョァィゥェォぁぃぅぇぉ'`. -/
def smallKanaPA : List Char :=
  ['ゃ', 'ゅ', 'ょ', 'ャ', 'ュ', 'ョ', 'ァ', 'ィ', 'ゥ', 'ェ', 'ォ',
   'ぁ', 'ぃ', 'ぅ', 'ぇ', 'ぉ']

/-- Small-kana set of `PitchAccentAPI.split_morae` in main.py (line 725):
`"ゃゅょャュョァィゥェォ"` (no small hiragana vowels). -/
def smallKanaMain : List Char :=
  ['ゃ', 'ゅ', 'ょ', 'ャ', 'ュ', 'ョ', 'ァ', 'ィ', 'ゥ', 'ェ', 'ォ']

/-- The shared scanning loop of both `split_morae` implementations:
if the character after the current one satisfies `small`, fuse the two into
one mora and advance by two, else emit the current character alone. -/
def splitMoraeWith (small : Char → Bool) : List Char → List (List Char)
  | [] => []
  | [c] => [[c]]
  | c1 :: c2 :: rest =>
    if small c2 then [c1, c2] :: splitMoraeWith small rest
    else [c1] :: splitMoraeWith small (c2 :: rest)

/-- `split_morae` of pitch_accent.py. -/
def splitMoraePA (text : List Char) : List (List Char) :=
  splitMoraeWith (fun c => smallKanaPA.contains c) text

/-- `PitchAccentAPI.split_morae` of main.py. -/
def splitMoraeMain (text : List Char) : List (List Char) :=
  splitMoraeWith (fun c => smallKanaMain.contains c) text

/-- String-valued wrapper for main.py's splitter (the morae are stored as
strings in `PITCH_DB` and the cached payloads). -/
def splitMoraeMainS (text : String) : List String :=
  (splitMoraeMain text.toList).map (fun l => String.mk l)

theorem splitMoraeWith_flatten (small : Char → Bool) :
    ∀ l : List Char, (splitMoraeWith small l).flatten = l
  | [] => by simp [splitMoraeWith]
  | [c] => by simp [splitMoraeWith]
  | c1 :: c2 :: rest => by
    by_cases h : small c2
    · simp [splitMoraeWith, h, splitMoraeWith_flatten small rest]
    · simp [splitMoraeWith, h, splitMoraeWith_flatten small (c2 :: rest)]

theorem splitMoraeWith_shape (small : Char → Bool) :
    ∀ l : List Char, ∀ m ∈ splitMoraeWith small l,
      (∃ c, m = [c]) ∨ (∃ c s, m = [c, s] ∧ small s = true)
  | [] => by simp [splitMoraeWith]
  | [c] => by simp [splitMoraeWith]
  | c1 :: c2 :: rest => by
    intro m hm
    by_cases h : small c2
    · rw [splitMoraeWith, if_pos h] at hm
      rcases List.mem_cons.mp hm with h1 | h1
      · exact Or.inr ⟨c1, c2, h1, h⟩
      · exact splitMoraeWith_shape small rest m h1
    · rw [splitMoraeWith, if_neg h] at hm
      rcases List.mem_cons.mp hm with h1 | h1
      · exact Or.inl ⟨c1, h1⟩
      · exact splitMoraeWith_shape small (c2 :: rest) m h1

theorem splitMoraeWith_head (small : Char → Bool) (c : Char) (rest : List Char) :
    ∃ m ms, splitMoraeWith small (c :: rest) = m :: ms ∧ m.headI = c := by
  cases rest with
  | nil => exact ⟨[c], [], rfl, rfl⟩
  | cons c2 r =>
    by_cases h : small c2
    · exact ⟨[c, c2], splitMoraeWith small r, by rw [splitMoraeWith, if_pos h], rfl⟩
    · exact ⟨[c], splitMoraeWith small (c2 :: r), by rw [splitMoraeWith, if_neg h], rfl⟩

/-- Greediness of the scan: a one-character mora is never followed by a mora
starting with a small kana (such a kana would have been fused into it). -/
theorem splitMoraeWith_greedy (small : Char → Bool) :
    ∀ l : List Char, ∀ k m₁ m₂, (splitMoraeWith small l)[k]? = some m₁ →
      (splitMoraeWith small l)[k + 1]? = some m₂ →
      m₁.length = 1 → small m₂.headI = false
  | [] => by intro k m₁ m₂ h1; simp [splitMoraeWith] at h1
  | [c] => by
    intro k m₁ m₂ h1 h2
    cases k with
    | zero => simp [splitMoraeWith] at h2
    | succ n => simp [splitMoraeWith] at h1
  | c1 :: c2 :: rest => by
    intro k m₁ m₂ h1 h2 hlen
    by_cases h : small c2
    · rw [splitMoraeWith, if_pos h] at h1 h2
      cases k with
      | zero =>
        rw [List.getElem?_cons_zero] at h1
        cases h1
        simp at hlen
      | succ n =>
        rw [List.getElem?_cons_succ] at h1 h2
        exact splitMoraeWith_greedy small rest n m₁ m₂ h1 h2 hlen
    · rw [splitMoraeWith, if_neg h] at h1 h2
      cases k with
      | zero =>
        rw [List.getElem?_cons_zero] at h1
        rw [List.getElem?_cons_succ] at h2
        obtain ⟨m, ms, heq, hhead⟩ := splitMoraeWith_head small c2 rest
        rw [heq, List.getElem?_cons_zero] at h2
        cases h2
        rw [hhead]
        simpa using h
      | succ n =>
        rw [List.getElem?_cons_succ] at h1 h2
        exact splitMoraeWith_greedy small (c2 :: rest) n m₁ m₂ h1 h2 hlen

/-! ## Pitch heights (pitch_accent.py `get_pitch_heights`, and the height
    computation inside main.py `PitchDiagramGenerator.generate_svg`) -/

/-- `get_pitch_heights` of pitch_accent.py (lines 83-118): `true` = high. -/
def get_pitch_heights (pattern : Int) (numMorae : Nat) : List Bool :=
  if numMorae = 0 then []
  else if pattern = 0 then false :: List.replicate (numMorae - 1) true
  else if pattern = 1 then true :: List.replicate (numMorae - 1) false
  else if pattern > 0 then
    false :: (List.range (numMorae - 1)).map (fun i : Nat => decide ((i : Int) + 1 < pattern))
  else List.replicate numMorae true

/-- main.py line 774: `int(pattern) if pattern.isdigit() else -1`
(`int` of an all-digit string is its decimal value). -/
def parsePatternNum (s : String) : Int :=
  if s.toList ≠ [] ∧ s.toList.all (fun c => c.isDigit) then
    ((s.toList.foldl (fun acc c => acc * 10 + (c.toNat - 48)) 0 : Nat) : Int)
  else -1

/-- The per-mora y-coordinate list computed inside `generate_svg`
(main.py lines 772-793), after the pattern string has been parsed;
`high_y = 20`, `low_y = 50`. -/
def svgHeightsCore (patternNum : Int) (numMorae : Nat) : List Nat :=
  if patternNum = 0 then 50 :: List.replicate (numMorae - 1) 20
  else if patternNum = 1 then 20 :: List.replicate (numMorae - 1) 50
  else if patternNum > 1 then
    50 :: (List.range (numMorae - 1)).map
      (fun i : Nat => if (i : Int) + 1 < patternNum then 20 else 50)
  else List.replicate numMorae 20

/-- Height computation of `generate_svg` on the raw pattern string; the
function returns `""` before computing any height when there are no morae. -/
def generateSvgHeights (pattern : String) (numMorae : Nat) : List Nat :=
  if numMorae = 0 then []
  else svgHeightsCore (parsePatternNum pattern) numMorae

/-! ## Claim C2: pitch height computation -/

/-- C2: for N >= 1 morae, downstep P: P = 0 gives mora 0 low and the rest
high; P = 1 gives mora 0 high and the rest low; 1 < P <= N gives mora 0 low,
morae 1..P-1 high, morae P..N-1 low; with the quoted concrete examples, in
both pitch_accent.py `get_pitch_heights` (true = high) and the height
computation of main.py `generate_svg` (20 = high y, 50 = low y). -/
theorem c2_pitch_heights :
    (∀ N : Nat, 1 ≤ N →
      (get_pitch_heights 0 N = false :: List.replicate (N - 1) true
        ∧ generateSvgHeights "0" N = 50 :: List.replicate (N - 1) 20)
      ∧ (get_pitch_heights 1 N = true :: List.replicate (N - 1) false
        ∧ generateSvgHeights "1" N = 20 :: List.replicate (N - 1) 50)
      ∧ (∀ P : Nat, 1 < P → P ≤ N →
          ((get_pitch_heights (P : Int) N)[0]? = some false
            ∧ (∀ i, 1 ≤ i → i < P → (get_pitch_heights (P : Int) N)[i]? = some true)
            ∧ (∀ i, P ≤ i → i < N → (get_pitch_heights (P : Int) N)[i]? = some false))
          ∧ ((svgHeightsCore (P : Int) N)[0]? = some 50
            ∧ (∀ i, 1 ≤ i → i < P → (svgHeightsCore (P : Int) N)[i]? = some 20)
            ∧ (∀ i, P ≤ i → i < N → (svgHeightsCore (P : Int) N)[i]? = some 50))))
  ∧ (get_pitch_heights 0 4 = [false, true, true, true]
      ∧ get_pitch_heights 1 3 = [true, false, false]
      ∧ get_pitch_heights 2 4 = [false, true, false, false]
      ∧ generateSvgHeights "0" 4 = [50, 20, 20, 20]
      ∧ generateSvgHeights "1" 3 = [20, 50, 50]
      ∧ generateSvgHeights "2" 4 = [50, 20, 50, 50]) := by
  constructor
  · intro N hN
    refine ⟨⟨?_, ?_⟩, ⟨?_, ?_⟩, ?_⟩
    · rw [get_pitch_heights, if_neg (by omega), if_pos rfl]
    · rw [generateSvgHeights, if_neg (by omega),
        show parsePatternNum "0" = 0 from by decide, svgHeightsCore, if_pos rfl]
    · rw [get_pitch_heights, if_neg (by omega), if_neg (by decide), if_pos rfl]
    · rw [generateSvgHeights, if_neg (by omega),
        show parsePatternNum "1" = 1 from by decide, svgHeightsCore, if_neg (by decide),
        if_pos rfl]
    · intro P hP1 hP2
      have hPz : (P : Int) ≠ 0 := by exact_mod_cast (by omega : P ≠ 0)
      have hPo : (P : Int) ≠ 1 := by exact_mod_cast (by omega : P ≠ 1)
      have hPp : (0 : Int) < P := by exact_mod_cast (by omega : 0 < P)
      have hPg : (1 : Int) < P := by exact_mod_cast hP1
      constructor
      · rw [get_pitch_heights, if_neg (by omega), if_neg hPz, if_neg hPo, if_pos hPp]
        refine ⟨List.getElem?_cons_zero, ?_, ?_⟩
        · intro i hi1 hiP
          cases i with
          | zero => omega
          | succ n =>
            rw [List.getElem?_cons_succ, List.getElem?_map, List.getElem?_range (by omega)]
            simp only [Option.map_some']
            congr 1
            rw [decide_eq_true_eq]
            exact_mod_cast (by omega : n + 1 < P)
        · intro i hiP hiN
          cases i with
          | zero => omega
          | succ n =>
            rw [List.getElem?_cons_succ, List.getElem?_map, List.getElem?_range (by omega)]
            simp only [Option.map_some']
            congr 1
            rw [decide_eq_false_iff_not]
            exact_mod_cast (by omega : ¬ (n + 1 < P))
      · rw [svgHeightsCore, if_neg hPz, if_neg hPo, if_pos hPg]
        refine ⟨List.getElem?_cons_zero, ?_, ?_⟩
        · intro i hi1 hiP
          cases i with
          | zero => omega
          | succ n =>
            rw [List.getElem?_cons_succ, List.getElem?_map, List.getElem?_range (by omega)]
            simp only [Option.map_some']
            congr 1
            rw [if_pos]
            exact_mod_cast (by omega : n + 1 < P)
        · intro i hiP hiN
          cases i with
          | zero => omega
          | succ n =>
            rw [List.getElem?_cons_succ, List.getElem?_map, List.getElem?_range (by omega)]
            simp only [Option.map_some']
            congr 1
            rw [if_neg]
            exact_mod_cast (by omega : ¬ (n + 1 < P))
  · exact ⟨by decide, by decide, by decide, by decide, by decide, by decide⟩

/-- C2 witness: the P = 2, N = 4 instance evaluated concretely. -/
theorem c2_witness :
    (get_pitch_heights ((2 : Nat) : Int) 4)[1]? = some true
      ∧ (get_pitch_heights ((2 : Nat) : Int) 4)[3]? = some false
      ∧ (svgHeightsCore ((2 : Nat) : Int) 4)[1]? = some 20
      ∧ get_pitch_heights 0 5 = false :: List.replicate 4 true := by
  refine ⟨?_, ?_, ?_, ?_⟩
  · exact (((c2_pitch_heights.1 4 (by norm_num)).2.2 2 (by norm_num) (by norm_num)).1).2.1 1
      (le_refl 1) (by norm_num)
  · exact (((c2_pitch_heights.1 4 (by norm_num)).2.2 2 (by norm_num) (by norm_num)).1).2.2 3
      (by norm_num) (by norm_num)
  · exact (((c2_pitch_heights.1 4 (by norm_num)).2.2 2 (by norm_num) (by norm_num)).2).2.1 1
      (le_refl 1) (by norm_num)
  · exact ((c2_pitch_heights.1 5 (by norm_num)).1).1

/-! ## Claim C3: mora segmentation -/

/-- C3 counterexample: the claimed example split("しゃしん") = ["しゃ","しん"]
fails on both implementations — ん is in neither small-kana set, so し and ん
are separate morae. -/
theorem c3_counterexample :
    splitMoraePA "しゃしん".toList ≠ [['し', 'ゃ'], ['し', 'ん']]
      ∧ splitMoraeMain "しゃしん".toList ≠ [['し', 'ゃ'], ['し', 'ん']] :=
  ⟨by decide, by decide⟩

/-- C3 (amended): scanning left to right, a character whose immediate
successor is in the fixed small-kana set is fused with it into one
two-character mora, every other character is a one-character mora
(captured by: concatenating the morae restores the input, every mora is one
character or two with a small second character, and a one-character mora is
never followed by a mora starting with a small kana); split("きょう") =
["きょ","う"] and split("しゃしん") = ["しゃ","し","ん"], in both
implementations. -/
theorem c3_mora_segmentation :
    (∀ l : List Char, (splitMoraePA l).flatten = l ∧ (splitMoraeMain l).flatten = l)
  ∧ (∀ l : List Char, ∀ m ∈ splitMoraePA l,
      (∃ c, m = [c]) ∨ (∃ c s, m = [c, s] ∧ smallKanaPA.contains s = true))
  ∧ (∀ l : List Char, ∀ m ∈ splitMoraeMain l,
      (∃ c, m = [c]) ∨ (∃ c s, m = [c, s] ∧ smallKanaMain.contains s = true))
  ∧ (∀ (l : List Char) (k : Nat) (m₁ m₂ : List Char),
      (splitMoraePA l)[k]? = some m₁ → (splitMoraePA l)[k + 1]? = some m₂ →
      m₁.length = 1 → smallKanaPA.contains m₂.headI = false)
  ∧ (∀ (l : List Char) (k : Nat) (m₁ m₂ : List Char),
      (splitMoraeMain l)[k]? = some m₁ → (splitMoraeMain l)[k + 1]? = some m₂ →
      m₁.length = 1 → smallKanaMain.contains m₂.headI = false)
  ∧ (splitMoraePA "きょう".toList = [['き', 'ょ'], ['う']]
      ∧ splitMoraeMain "きょう".toList = [['き', 'ょ'], ['う']]
      ∧ splitMoraePA "しゃしん".toList = [['し', 'ゃ'], ['し'], ['ん']]
      ∧ splitMoraeMain "しゃしん".toList = [['し', 'ゃ'], ['し'], ['ん']]) :=
  ⟨fun l => ⟨splitMoraeWith_flatten _ l, splitMoraeWith_flatten _ l⟩,
    fun l => splitMoraeWith_shape _ l,
    fun l => splitMoraeWith_shape _ l,
    fun l => splitMoraeWith_greedy _ l,
    fun l => splitMoraeWith_greedy _ l,
    by decide, by decide, by decide, by decide⟩

/-- C3 witness: the greedy clause applied at the concrete split of "あか". -/
theorem c3_witness :
    smallKanaPA.contains (List.headI ['か']) = false
      ∧ smallKanaMain.contains (List.headI ['か']) = false :=
  ⟨c3_mora_segmentation.2.2.2.1 "あか".toList 0 ['あ'] ['か'] (by decide) (by decide) rfl,
   c3_mora_segmentation.2.2.2.2.1 "あか".toList 0 ['あ'] ['か'] (by decide) (by decide) rfl⟩

/-! ## Claim C10: extensional equality of the two splitters -/

/-- The five small hiragana vowels present in pitch_accent.py's set but
absent from main.py's set. -/
def smallHiraVowels : List Char := ['ぁ', 'ぃ', 'ぅ', 'ぇ', 'ぉ']

theorem smallKana_contains_agree (c : Char) (h : ¬ c ∈ smallHiraVowels) :
    smallKanaPA.contains c = smallKanaMain.contains c := by
  simp only [smallHiraVowels, List.mem_cons, List.not_mem_nil, or_false] at h
  push_neg at h
  obtain ⟨h1, h2, h3, h4, h5⟩ := h
  simp only [smallKanaPA, smallKanaMain, List.elem_eq_mem, List.mem_cons,
    List.not_mem_nil, or_false, decide_eq_decide]
  constructor
  · rintro (h | h | h | h | h | h | h | h | h | h | h | h | h | h | h | h) <;>
      first
        | (exact absurd h h1)
        | (exact absurd h h2)
        | (exact absurd h h3)
        | (exact absurd h h4)
        | (exact absurd h h5)
        | tauto
  · tauto

theorem splitMorae_agree_of_no_small_vowel :
    ∀ l : List Char, (∀ c ∈ l, ¬ c ∈ smallHiraVowels) → splitMoraePA l = splitMoraeMain l
  | [] => by intro h; rfl
  | [c] => by intro h; rfl
  | c1 :: c2 :: rest => by
    intro h
    have h2 : ¬ c2 ∈ smallHiraVowels := h c2 (by simp)
    have hag := smallKana_contains_agree c2 h2
    unfold splitMoraePA splitMoraeMain splitMoraeWith
    by_cases hc : smallKanaMain.contains c2 = true
    · rw [if_pos (by rw [hag]; exact hc), if_pos hc]
      have := splitMorae_agree_of_no_small_vowel rest (fun c hm => h c (by simp [hm]))
      unfold splitMoraePA splitMoraeMain at this
      rw [this]
    · rw [if_neg (by rw [hag]; exact hc), if_neg hc]
      have := splitMorae_agree_of_no_small_vowel (c2 :: rest)
        (fun c hm => h c (by simp at hm ⊢; tauto))
      unfold splitMoraePA splitMoraeMain at this
      rw [this]

/-- C10 counterexample: the two splitters differ on "ふぁ" — pitch_accent.py
fuses the small vowel ぁ, main.py does not. -/
theorem c10_counterexample :
    splitMoraePA "ふぁ".toList = [['ふ', 'ぁ']]
      ∧ splitMoraeMain "ふぁ".toList = [['ふ'], ['ぁ']]
      ∧ splitMoraePA "ふぁ".toList ≠ splitMoraeMain "ふぁ".toList :=
  ⟨by decide, by decide, by decide⟩

/-- C10 (amended): the two mora-segmentation implementations agree on every
string containing none of the five small hiragana vowels ぁぃぅぇぉ (the exact
difference between the two fixed small-kana sets). -/
theorem c10_split_morae_agree (l : List Char) (h : ∀ c ∈ l, ¬ c ∈ smallHiraVowels) :
    splitMoraePA l = splitMoraeMain l :=
  splitMorae_agree_of_no_small_vowel l h

/-- C10 witness: agreement evaluated on "きょう". -/
theorem c10_witness : splitMoraePA "きょう".toList = splitMoraeMain "きょう".toList :=
  c10_split_morae_agree "きょう".toList (by decide)

/-! ## Pitch pattern resolution (main.py `PitchAccentAPI.get_pitch_pattern`,
    lines 655-695) -/

/-- State read and written by `get_pitch_pattern`: the curated `PITCH_DB`
(word → (pattern string, morae)) and the persisted per-key cache.  The cache
directory holds one JSON file per word, named by a deterministic hash of the
word, so it is modelled as an association list keyed by the word itself whose
payload is the stored pattern string. -/
structure PitchState where
  pitchDB : List (String × (String × List String))
  cache : List (String × String)

/-- One `get_pitch_pattern(word, reading, offline)` call.  `fetchFromJisho`
stands for `_fetch_from_jisho` (it returns a digit string or the "?" failure
sentinel).  Returns the `(pattern, morae)` result, the state after the call,
and the final value of `last_api_called`:
(1) curated hit returns immediately; (2) cache hit returns the stored
pattern with freshly computed morae; (3) offline returns "?" without
persisting; (4) otherwise fetch, persist the result (also "?") and return. -/
def getPitchPattern (fetchFromJisho : String → String → String) (st : PitchState)
    (word reading : String) (offline : Bool) :
    (String × List String) × PitchState × Bool :=
  match st.pitchDB.lookup word with
  | some v => (v, st, false)
  | none =>
    let morae := splitMoraeMainS reading
    match st.cache.lookup word with
    | some p => ((p, morae), st, false)
    | none =>
      if offline then (("?", morae), st, false)
      else
        let pattern := fetchFromJisho word reading
        ((pattern, morae), ⟨st.pitchDB, (word, pattern) :: st.cache⟩, true)

/-! ## Claim C1: idempotent resolution with at most one fetch -/

/-- C1: for a key outside the curated table, two consecutive non-offline
calls return the same (pattern, morae) value even though the second call
runs with an arbitrary (possibly unavailable) fetch function, the second
call never fetches, and at most one fetch happens in total. -/
theorem c1_resolution_idempotent (f g : String → String → String) (st : PitchState)
    (word reading : String) (h : st.pitchDB.lookup word = none) :
    (getPitchPattern g (getPitchPattern f st word reading false).2.1 word reading false).1 =
        (getPitchPattern f st word reading false).1
      ∧ (getPitchPattern g (getPitchPattern f st word reading false).2.1
          word reading false).2.2 = false
      ∧ (getPitchPattern f st word reading false).2.2.toNat
          + (getPitchPattern g (getPitchPattern f st word reading false).2.1
              word reading false).2.2.toNat ≤ 1 := by
  cases hc : st.cache.lookup word with
  | some p =>
    simp [getPitchPattern, h, hc]
  | none =>
    simp [getPitchPattern, h, hc, List.lookup]

/-- C1 witness: empty curated table and cache, first fetch returns "3",
second fetch unavailable (would return "?"). -/
theorem c1_witness :
    (getPitchPattern (fun _ _ => "?")
        (getPitchPattern (fun _ _ => "3") ⟨[], []⟩ "猫" "ねこ" false).2.1
        "猫" "ねこ" false).1 =
      (getPitchPattern (fun _ _ => "3") ⟨[], []⟩ "猫" "ねこ" false).1 :=
  (c1_resolution_idempotent (fun _ _ => "3") (fun _ _ => "?") ⟨[], []⟩ "猫" "ねこ" rfl).1

/-! ## Claim C4: offline resolution does not persist -/

/-- C4: an offline call for a key neither curated nor cached returns the "?"
sentinel and leaves the state untouched (no cache entry is written, no
fetch), and a later non-offline call on that same state does run the fetch. -/
theorem c4_offline_no_persist (f : String → String → String) (st : PitchState)
    (word reading : String) (h1 : st.pitchDB.lookup word = none)
    (h2 : st.cache.lookup word = none) :
    getPitchPattern f st word reading true = (("?", splitMoraeMainS reading), st, false)
      ∧ (getPitchPattern f st word reading false).2.2 = true := by
  constructor
  · simp [getPitchPattern, h1, h2]
  · simp [getPitchPattern, h1, h2]

/-- C4 witness: evaluated on empty state. -/
theorem c4_witness :
    getPitchPattern (fun _ _ => "2") ⟨[], []⟩ "犬" "いぬ" true =
      (("?", splitMoraeMainS "いぬ"), ⟨[], []⟩, false) :=
  (c4_offline_no_persist (fun _ _ => "2") ⟨[], []⟩ "犬" "いぬ" rfl rfl).1

/-! ## Verb conjugation (main.py `VerbConjugator`, lines 1576-1830) -/

/-- Python substring test `needle in hay`. -/
def listHasInfix (hay needle : List Char) : Bool :=
  (List.range (hay.length + 1)).any (fun i => needle.isPrefixOf (hay.drop i))

/-- `needle in hay` on strings. -/
def strContains (hay needle : String) : Bool := listHasInfix hay.toList needle.toList

/-- Python `w.endswith(suffix)`. -/
def endsWithStr (w suffix : String) : Bool := suffix.toList.isSuffixOf w.toList

/-- One row of `GODAN_ENDINGS`: the five suffixes appended to the stem. -/
structure GodanRow where
  masu : String
  te : String
  ta : String
  nai : String
  potential : String

/-- `VerbConjugator.GODAN_ENDINGS` (main.py lines 1579-1643), keyed by the
terminal kana. -/
def GODAN_ENDINGS : Char → Option GodanRow
  | 'う' => some ⟨"います", "って", "った", "わない", "える"⟩
  | 'く' => some ⟨"きます", "いて", "いた", "かない", "ける"⟩
  | 'ぐ' => some ⟨"ぎます", "いで", "いだ", "がない", "げる"⟩
  | 'す' => some ⟨"します", "して", "した", "さない", "せる"⟩
  | 'つ' => some ⟨"ちます", "って", "った", "たない", "てる"⟩
  | 'ぬ' => some ⟨"にます", "んで", "んだ", "なない", "ねる"⟩
  | 'ぶ' => some ⟨"びます", "んで", "んだ", "ばない", "べる"⟩
  | 'む' => some ⟨"みます", "んで", "んだ", "まない", "める"⟩
  | 'る' => some ⟨"ります", "って", "った", "らない", "れる"⟩
  | _ => none

/-- One entry of `VerbConjugator.IRREGULARS`: five literal forms plus the
`type` tag. -/
structure IrregularEntry where
  masu : String
  te : String
  ta : String
  nai : String
  potential : String
  vtype : String

/-- `VerbConjugator.IRREGULARS` (main.py lines 1646-1693). -/
def IRREGULARS : String → Option IrregularEntry
  | "する" => some ⟨"します", "して", "した", "しない", "できる", "suru"⟩
  | "来る" => some ⟨"来ます", "来て", "来た", "来ない", "来られる", "kuru"⟩
  | "くる" => some ⟨"きます", "きて", "きた", "こない", "こられる", "kuru"⟩
  | "行く" => some ⟨"行きます", "行って", "行った", "行かない", "行ける", "iku"⟩
  | "いく" => some ⟨"いきます", "いって", "いった", "いかない", "いける", "iku"⟩
  | "ある" => some ⟨"あります", "あって", "あった", "ない", "ありえる", "aru"⟩
  | _ => none

/-- `VerbConjugator.ICHIDAN_COMMON` (main.py lines 1696-1722). -/
def ICHIDAN_COMMON : List String :=
  ["食べる", "見る", "起きる", "寝る", "着る", "出る", "開ける", "閉める",
   "教える", "考える", "答える", "忘れる", "覚える", "始める", "終わる",
   "たべる", "みる", "おきる", "ねる", "きる", "でる", "あける", "しめる"]

/-- Verb markers of `detect_verb_type` (main.py line 1727). -/
def verbMarkers : List String := ["Verb", "動詞", "Động từ", "verb"]

def ichidanMarkers : List String := ["Ichidan", "ichidan", "一段"]

def godanMarkers : List String := ["Godan", "godan", "五段"]

/-- え-row kana list of the ichidan heuristic (main.py line 1764). -/
def eRow : List Char := "えけせてねへめれげぜでべぺ".toList

/-- い-row kana list of the ichidan heuristic (main.py line 1766). -/
def iRow : List Char := "いきしちにひみりぎじぢびぴ".toList

/-- `VerbConjugator.detect_verb_type` (main.py lines 1724-1778). -/
def detect_verb_type (word wordType : String) : String :=
  if wordType ≠ "" ∧ ¬ (verbMarkers.any (fun m => strContains wordType m)) then "not_verb"
  else
    match IRREGULARS word with
    | some e => e.vtype
    | none =>
      if endsWithStr word "する" then "suru"
      else if wordType ≠ "" ∧ ichidanMarkers.any (fun m => strContains wordType m) then
        "ichidan"
      else if wordType ≠ "" ∧ godanMarkers.any (fun m => strContains wordType m) then
        "godan"
      else if word ∈ ICHIDAN_COMMON then "ichidan"
      else if word = "" then "not_verb"
      else
        let chars := word.toList
        match chars.getLast? with
        | none => "not_verb"
        | some last =>
          if last = 'る' ∧ chars.length ≥ 2
              ∧ (chars.getD (chars.length - 2) ' ' ∈ eRow
                  ∨ chars.getD (chars.length - 2) ' ' ∈ iRow) then "ichidan"
          else if (GODAN_ENDINGS last).isSome then "godan"
          else "not_verb"

/-- `VerbConjugator.conjugate` (main.py lines 1780-1830); the returned dict
is modelled as an association list in insertion order ([] for `{}`). -/
def conjugate (word reading wordType : String) : List (String × String) :=
  let verbType := detect_verb_type word wordType
  if verbType = "not_verb" then []
  else
    match IRREGULARS word with
    | some e =>
      [("masu", e.masu), ("te", e.te), ("ta", e.ta), ("nai", e.nai),
       ("potential", e.potential)]
    | none =>
      if verbType = "suru" ∧ endsWithStr word "する" then
        let stem := String.mk word.toList.dropLast.dropLast
        [("masu", stem ++ "します"), ("te", stem ++ "して"), ("ta", stem ++ "した"),
         ("nai", stem ++ "しない"), ("potential", stem ++ "できる")]
      else if word = "" then []
      else
        let stem := String.mk word.toList.dropLast
        let last := word.toList.getLast?.getD ' '
        if verbType = "ichidan" then
          [("masu", stem ++ "ます"), ("te", stem ++ "て"), ("ta", stem ++ "た"),
           ("nai", stem ++ "ない"), ("potential", stem ++ "られる")]
        else if verbType = "godan" then
          match GODAN_ENDINGS last with
          | some r =>
            [("masu", stem ++ r.masu), ("te", stem ++ r.te), ("ta", stem ++ r.ta),
             ("nai", stem ++ r.nai), ("potential", stem ++ r.potential)]
          | none => []
        else []

/-! ## Claim C5: conjugation output is all-or-nothing -/

/-- C5: `conjugate` returns either the empty dict or a dict whose keys are
exactly the five forms masu, te, ta, nai, potential — never a proper
non-empty subset. -/
theorem c5_all_or_nothing (word reading wordType : String) :
    conjugate word reading wordType = []
      ∨ (conjugate word reading wordType).map Prod.fst
          = ["masu", "te", "ta", "nai", "potential"] := by
  simp only [conjugate]
  split
  · exact Or.inl rfl
  · split
    · exact Or.inr rfl
    · split
      · exact Or.inr rfl
      · split
        · exact Or.inl rfl
        · split
          · exact Or.inr rfl
          · split
            · split
              · exact Or.inr rfl
              · exact Or.inl rfl
            · exact Or.inl rfl

theorem irregular_vtype (w : String) (e : IrregularEntry) (h : IRREGULARS w = some e) :
    e.vtype ≠ "ichidan" ∧ e.vtype ≠ "godan" := by
  unfold IRREGULARS at h
  split at h <;> simp_all <;> subst h <;> decide

theorem detect_ichidan_not_irregular (word wordType : String)
    (h : detect_verb_type word wordType = "ichidan") : IRREGULARS word = none := by
  unfold detect_verb_type at h
  split at h
  · simp at h
  · cases he : IRREGULARS word with
    | none => rfl
    | some e =>
      rw [he] at h
      exact absurd h (irregular_vtype word e he).1

theorem detect_godan_not_irregular (word wordType : String)
    (h : detect_verb_type word wordType = "godan") : IRREGULARS word = none := by
  unfold detect_verb_type at h
  split at h
  · simp at h
  · cases he : IRREGULARS word with
    | none => rfl
    | some e =>
      rw [he] at h
      exact absurd h (irregular_vtype word e he).2

/-! ## Claim C6: conjugation form generation -/

/-- C6 counterexample: the word "しゃ" with word type "Ichidan verb" is
classified ichidan, but the code strips only the final character (stem し),
not the terminal mora しゃ: the masu form is "します", not "ます".  Also the
empty word with an ichidan word type is classified ichidan yet conjugates to
the empty dict. -/
theorem c6_counterexample :
    detect_verb_type "しゃ" "Ichidan verb" = "ichidan"
      ∧ (conjugate "しゃ" "" "Ichidan verb").lookup "masu" = some "します"
      ∧ String.join ((splitMoraeMainS "しゃ").dropLast) ++ "ます" = "ます"
      ∧ ("します" : String) ≠ "ます"
      ∧ detect_verb_type "" "Ichidan verb" = "ichidan"
      ∧ conjugate "" "" "Ichidan verb" = [] :=
  ⟨by decide, by decide, by decide, by decide, by decide, by decide⟩

/-- C6 (amended): a nonempty word classified ichidan conjugates by dropping
its final character and appending the five fixed suffixes; a word classified
godan whose last character is a key of the godan table conjugates by
dropping its last character and appending that row's suffixes; a word
classified not a verb yields the empty dict. -/
theorem c6_conjugation_forms :
    (∀ word reading wordType, word ≠ "" →
      detect_verb_type word wordType = "ichidan" →
      conjugate word reading wordType =
        [("masu", String.mk word.toList.dropLast ++ "ます"),
         ("te", String.mk word.toList.dropLast ++ "て"),
         ("ta", String.mk word.toList.dropLast ++ "た"),
         ("nai", String.mk word.toList.dropLast ++ "ない"),
         ("potential", String.mk word.toList.dropLast ++ "られる")])
  ∧ (∀ word reading wordType (r : GodanRow),
      detect_verb_type word wordType = "godan" →
      GODAN_ENDINGS (word.toList.getLast?.getD ' ') = some r →
      conjugate word reading wordType =
        [("masu", String.mk word.toList.dropLast ++ r.masu),
         ("te", String.mk word.toList.dropLast ++ r.te),
         ("ta", String.mk word.toList.dropLast ++ r.ta),
         ("nai", String.mk word.toList.dropLast ++ r.nai),
         ("potential", String.mk word.toList.dropLast ++ r.potential)])
  ∧ (∀ word reading wordType,
      detect_verb_type word wordType = "not_verb" →
      conjugate word reading wordType = []) := by
  refine ⟨?_, ?_, ?_⟩
  · intro word reading wordType hw h
    have hirr := detect_ichidan_not_irregular word wordType h
    simp only [conjugate]
    rw [h, hirr]
    rw [if_neg (by decide : ¬ ("ichidan" : String) = "not_verb")]
    rw [if_neg (fun hc => absurd hc.1 (by decide))]
    rw [if_neg hw, if_pos rfl]
  · intro word reading wordType r h hg
    have hirr := detect_godan_not_irregular word wordType h
    have hw : word ≠ "" := by
      intro he
      subst he
      rw [show GODAN_ENDINGS ((("" : String).toList.getLast?).getD ' ') = none from rfl] at hg
      exact Option.noConfusion hg
    simp only [conjugate]
    rw [h, hirr]
    rw [if_neg (by decide : ¬ ("godan" : String) = "not_verb")]
    rw [if_neg (fun hc => absurd hc.1 (by decide))]
    rw [if_neg hw, if_neg (by decide : ¬ ("godan" : String) = "ichidan"), if_pos rfl, hg]
  · intro word reading wordType h
    simp only [conjugate]
    rw [h, if_pos rfl]

/-- C6 witness: the three clauses evaluated on 食べる (ichidan), 飲む
(godan む-row) and 猫 (not a verb). -/
theorem c6_witness :
    conjugate "食べる" "" "" =
      [("masu", "食べます"), ("te", "食べて"), ("ta", "食べた"),
       ("nai", "食べない"), ("potential", "食べられる")]
      ∧ conjugate "飲む" "" "" =
        [("masu", "飲みます"), ("te", "飲んで"), ("ta", "飲んだ"),
         ("nai", "飲まない"), ("potential", "飲める")]
      ∧ conjugate "猫" "" "" = [] := by
  refine ⟨?_, ?_, ?_⟩
  · rw [c6_conjugation_forms.1 "食べる" "" "" (by decide) (by decide)]
    decide
  · rw [c6_conjugation_forms.2.1 "飲む" "" "" ⟨"みます", "んで", "んだ", "まない", "める"⟩
      (by decide) rfl]
    decide
  · exact c6_conjugation_forms.2.2 "猫" "" "" (by decide)

/-! ## Radical decomposition (main.py `RadicalDB`, lines 975-1199) -/


/-- One entry of the radical catalog (`RADICALS_DATA` row): canonical
symbol, stylistic variants, meaning and the two frequency signals. -/
structure RadEntry where
  symbol : String
  variants : List String
  meaningVn : String
  frequency : Nat
  joyoFreq : Nat
  deriving DecidableEq

/-- One result dict of `identify_radical` / `identify_all_radicals`:
the "radical" field, the optional "found_as" field, and the catalog entry
whose keys are spread into the dict (so `entry.symbol` is the canonical
symbol field). -/
structure RadItem where
  radical : String
  foundAs : Option String
  entry : RadEntry
  deriving DecidableEq

/-- `RADICAL_BY_SYMBOL` / `RADICAL_BY_VARIANT` (built once by `_load`). -/
structure RadCatalog where
  bySymbol : List (String × RadEntry)
  byVariant : List (String × RadEntry)

/-- Result of a jamdict character lookup: the raw radical string (e.g.
"水-water[sc:4]") and the raw component list. -/
structure JamChar where
  radical : String
  components : List String

/-- Mutable state of `RadicalDB`: the per-kanji component cache
(`_jamdict_cache`). -/
structure RadState where
  cache : List (String × List String)

/-- `RadicalDB.identify_radical` (main.py lines 1089-1155): kanji that is
itself a radical; else jamdict main-radical lookup matched against the
catalog by symbol then by variant, recording which variant form appears in
the components; else substring fallback over variants then symbols.
`jamdict` and `nfkc` model the external decomposition service and NFKC
normalization, fixed for the run. -/
def identifyRadical (cat : RadCatalog) (jamdict : String → Option JamChar)
    (nfkc : String → String) (kanji : String) : Option RadItem :=
  match cat.bySymbol.lookup kanji with
  | some rad => some ⟨kanji, none, rad⟩
  | none =>
    let viaJam :=
      match jamdict kanji with
      | some ch =>
        if ch.radical ≠ "" ∧ strContains ch.radical "-" then
          let jamdictRadical := (ch.radical.splitOn "-").headI
          let components := ch.components.map nfkc
          let dbEntry : Option (String × RadEntry) :=
            match cat.bySymbol.lookup jamdictRadical with
            | some rad => some (jamdictRadical, rad)
            | none =>
              match cat.byVariant.lookup jamdictRadical with
              | some rad => some (rad.symbol, rad)
              | none => none
          match dbEntry with
          | some (dbRadical, rad) =>
            some ⟨dbRadical, rad.variants.find? (fun v => components.contains v), rad⟩
          | none => none
        else none
      | none => none
    match viaJam with
    | some r => some r
    | none =>
      match cat.byVariant.find? (fun (p : String × RadEntry) => strContains kanji p.1) with
      | some (variant, rad) => some ⟨rad.symbol, some variant, rad⟩
      | none =>
        match cat.bySymbol.find? (fun (p : String × RadEntry) => strContains kanji p.1 && p.1 != kanji) with
        | some (symbol, rad) => some ⟨symbol, none, rad⟩
        | none => none

/-- `RadicalDB._get_components` (main.py lines 1054-1075): answer from the
per-kanji cache, else query jamdict, normalize and cache the result (a
failed lookup is not cached). -/
def getComponents (jamdict : String → Option JamChar) (nfkc : String → String)
    (st : RadState) (kanji : String) : List String × RadState :=
  match st.cache.lookup kanji with
  | some comps => (comps, st)
  | none =>
    match jamdict kanji with
    | some ch =>
      let comps := ch.components.map nfkc
      (comps, ⟨(kanji, comps) :: st.cache⟩)
    | none => ([], st)

/-- The component loop of `identify_all_radicals` (main.py lines
1173-1191): match each component by exact symbol then by variant,
deduplicating on the canonical symbol via `seen_symbols`. -/
def radLoop (cat : RadCatalog) : List String → List String → List RadItem
  | [], _ => []
  | comp :: rest, seen =>
    match cat.bySymbol.lookup comp with
    | some rad =>
      if rad.symbol ∈ seen then radLoop cat rest seen
      else ⟨comp, none, rad⟩ :: radLoop cat rest (rad.symbol :: seen)
    | none =>
      match cat.byVariant.lookup comp with
      | some rad =>
        if rad.symbol ∈ seen then radLoop cat rest seen
        else ⟨rad.symbol, some comp, rad⟩ :: radLoop cat rest (rad.symbol :: seen)
      | none => radLoop cat rest seen


/-- The pure result part of identify_all_radicals, as a function of the
components list obtained for the kanji. -/
def identifyAllRadicalsResult (cat : RadCatalog) (jamdict : String → Option JamChar)
    (nfkc : String → String) (kanji : String) (components : List String) : List RadItem :=
  let results := if components ≠ [] then radLoop cat components [] else []
  if results ≠ [] then results
  else
    match identifyRadical cat jamdict nfkc kanji with
    | some r => [r]
    | none => []

/-- `RadicalDB.identify_all_radicals` (main.py lines 1157-1199). -/
def identifyAllRadicals (cat : RadCatalog) (jamdict : String → Option JamChar)
    (nfkc : String → String) (st : RadState) (kanji : String) :
    List RadItem × RadState :=
  match cat.bySymbol.lookup kanji with
  | some rad => ([⟨kanji, none, rad⟩], st)
  | none =>
    let cs := getComponents jamdict nfkc st kanji
    (identifyAllRadicalsResult cat jamdict nfkc kanji cs.1, cs.2)

theorem radLoop_nodup (cat : RadCatalog) :
    ∀ (comps seen : List String),
      ((radLoop cat comps seen).map (fun it => it.entry.symbol)).Nodup
        ∧ ∀ it ∈ radLoop cat comps seen, ¬ it.entry.symbol ∈ seen
  | [], seen => by simp [radLoop]
  | comp :: rest, seen => by
    unfold radLoop
    cases hs : cat.bySymbol.lookup comp with
    | some rad =>
      by_cases hseen : rad.symbol ∈ seen
      · simp only [if_pos hseen]
        exact radLoop_nodup cat rest seen
      · simp only [if_neg hseen]
        obtain ⟨ih1, ih2⟩ := radLoop_nodup cat rest (rad.symbol :: seen)
        refine ⟨?_, ?_⟩
        · rw [List.map_cons, List.nodup_cons]
          exact ⟨fun hmem => by
            obtain ⟨it, hit, heq⟩ := List.mem_map.mp hmem
            exact (ih2 it hit) (heq ▸ List.mem_cons_self _ _), ih1⟩
        · intro it hit
          rcases List.mem_cons.mp hit with rfl | hit2
          · exact hseen
          · exact fun hmem => (ih2 it hit2) (List.mem_cons_of_mem _ hmem)
    | none =>
      cases hv : cat.byVariant.lookup comp with
      | some rad =>
        by_cases hseen : rad.symbol ∈ seen
        · simp only [if_pos hseen]
          exact radLoop_nodup cat rest seen
        · simp only [if_neg hseen]
          obtain ⟨ih1, ih2⟩ := radLoop_nodup cat rest (rad.symbol :: seen)
          refine ⟨?_, ?_⟩
          · rw [List.map_cons, List.nodup_cons]
            exact ⟨fun hmem => by
              obtain ⟨it, hit, heq⟩ := List.mem_map.mp hmem
              exact (ih2 it hit) (heq ▸ List.mem_cons_self _ _), ih1⟩
          · intro it hit
            rcases List.mem_cons.mp hit with rfl | hit2
            · exact hseen
            · exact fun hmem => (ih2 it hit2) (List.mem_cons_of_mem _ hmem)
      | none => exact radLoop_nodup cat rest seen

theorem identifyAllRadicalsResult_nodup (cat : RadCatalog)
    (jamdict : String → Option JamChar) (nfkc : String → String)
    (kanji : String) (comps : List String) :
    ((identifyAllRadicalsResult cat jamdict nfkc kanji comps).map
      (fun it => it.entry.symbol)).Nodup := by
  unfold identifyAllRadicalsResult
  by_cases hcomp : comps ≠ []
  · rw [if_pos hcomp]
    by_cases hr : radLoop cat comps [] ≠ []
    · rw [if_pos hr]
      exact (radLoop_nodup cat comps []).1
    · rw [if_neg hr]
      split <;> simp
  · rw [if_neg hcomp, if_neg (by simp)]
    split <;> simp

theorem getComponents_stable (jamdict : String → Option JamChar)
    (nfkc : String → String) (st : RadState) (kanji : String) :
    getComponents jamdict nfkc (getComponents jamdict nfkc st kanji).2 kanji =
      getComponents jamdict nfkc st kanji := by
  unfold getComponents
  cases hc : st.cache.lookup kanji with
  | some comps => simp [hc]
  | none =>
    cases hj : jamdict kanji with
    | some ch => simp [hc, hj, List.lookup]
    | none => simp [hc, hj]

/-- C9: with the catalog, the decomposition service and the component
cache state fixed, `identify_all_radicals` returns a list whose canonical
radical symbols are pairwise distinct, and calling it again on the state
left by the first call returns the same list (and the same state). -/
theorem c9_radicals (cat : RadCatalog) (jamdict : String → Option JamChar)
    (nfkc : String → String) (st : RadState) (kanji : String) :
    (((identifyAllRadicals cat jamdict nfkc st kanji).1.map
        (fun it => it.entry.symbol)).Nodup)
      ∧ identifyAllRadicals cat jamdict nfkc
          (identifyAllRadicals cat jamdict nfkc st kanji).2 kanji =
          identifyAllRadicals cat jamdict nfkc st kanji := by
  constructor
  · unfold identifyAllRadicals
    cases hs : cat.bySymbol.lookup kanji with
    | some rad => simp
    | none => exact identifyAllRadicalsResult_nodup cat jamdict nfkc kanji _
  · unfold identifyAllRadicals
    cases hs : cat.bySymbol.lookup kanji with
    | some rad => simp [hs]
    | none =>
      simp only [hs]
      rw [getComponents_stable jamdict nfkc st kanji]


/-! ## Orchestrator fetch accounting (main.py `JapaneseVocabPipeline`) -/


/-- The option flags threaded from `run` into `_enrich_entry`
(main.py lines 2888-2906, 2980-2996). -/
structure EnrichOpts where
  offline : Bool
  enrichEnglish : Bool
  generateAudio : Bool
  generatePitch : Bool
  generateStroke : Bool
  generateExample : Bool

/-- What each resolution call of `_enrich_entry` reports for one record:
the first four are the early lookups whose fetch activity the method never
reads back (reading validation via `JishoAPI.get_reading`,
`KanjiAPI.get_readings`, `JishoAPI.get_word_type`,
`JishoAPI.get_synonyms_antonyms`); the rest are the flags the method checks
(examples, example audio synthesis, English meaning, pitch, an uncached
stroke kanji, an uncached word audio file).  Each report is the observed
per-source flag, false whenever that callee skipped the network
(e.g. its own offline handling or a cache hit). -/
structure FetchReports where
  jishoReadingFetched : Bool
  kanjiApiFetched : Bool
  wordTypeFetched : Bool
  synonymsFetched : Bool
  exampleFetched : Bool
  exampleAudioGenerated : Bool
  englishFetched : Bool
  pitchFetched : Bool
  strokeUncachedKanji : Bool
  audioUncached : Bool

/-- `self._last_api_called` at the end of `_enrich_entry` (main.py lines
2989, 3139-3140, 3184-3185, 3192-3193, 3203-3204, 3231, 3259): reset to
false, then set on each checked report in source order. -/
def enrichLastApiCalled (o : EnrichOpts) (r : FetchReports) : Bool :=
  ((((((false
    || (o.generateExample && r.exampleFetched))
    || (o.generateExample && o.generateAudio && !o.offline && r.exampleAudioGenerated))
    || (o.enrichEnglish && !o.offline && r.englishFetched))
    || (o.generatePitch && r.pitchFetched))
    || (o.generateStroke && !o.offline && r.strokeUncachedKanji))
    || (o.generateAudio && !o.offline && r.audioUncached))

/-- Whether any resolution call of the record performed a live fetch,
including the four untracked early lookups. -/
def anyLiveFetch (o : EnrichOpts) (r : FetchReports) : Bool :=
  r.jishoReadingFetched || r.kanjiApiFetched || r.wordTypeFetched
    || r.synonymsFetched || enrichLastApiCalled o r

/-- The `run` loop (main.py lines 2949-2952): one `time.sleep` per record
whose final `_last_api_called` is true. -/
def runSleepCount (o : EnrichOpts) (rs : List FetchReports) : Nat :=
  (rs.filter (fun r => enrichLastApiCalled o r)).length

/-- C8 (amended): the per-record flag implies a live fetch happened, each
of the tracked resolution reports sets the flag, and a run over records
none of whose resolutions fetched executes no delay.  (The converse of the
first clause fails: see the counterexample.) -/
theorem c8_fetch_accounting :
    (∀ (o : EnrichOpts) (r : FetchReports),
      enrichLastApiCalled o r = true → anyLiveFetch o r = true)
  ∧ (∀ (o : EnrichOpts) (r : FetchReports),
      (o.generatePitch && r.pitchFetched) = true → enrichLastApiCalled o r = true)
  ∧ (∀ (o : EnrichOpts) (r : FetchReports),
      (o.generateExample && r.exampleFetched) = true → enrichLastApiCalled o r = true)
  ∧ (∀ (o : EnrichOpts) (r : FetchReports),
      (o.enrichEnglish && !o.offline && r.englishFetched) = true →
        enrichLastApiCalled o r = true)
  ∧ (∀ (o : EnrichOpts) (r : FetchReports),
      (o.generateStroke && !o.offline && r.strokeUncachedKanji) = true →
        enrichLastApiCalled o r = true)
  ∧ (∀ (o : EnrichOpts) (r : FetchReports),
      (o.generateAudio && !o.offline && r.audioUncached) = true →
        enrichLastApiCalled o r = true)
  ∧ (∀ (o : EnrichOpts) (rs : List FetchReports),
      (∀ r ∈ rs, anyLiveFetch o r = false) → runSleepCount o rs = 0) := by
  refine ⟨?_, ?_, ?_, ?_, ?_, ?_, ?_⟩
  · intro o r h
    simp only [anyLiveFetch, h, Bool.or_true]
  · intro o r h
    simp [enrichLastApiCalled, h]
  · intro o r h
    simp [enrichLastApiCalled, h]
  · intro o r h
    simp [enrichLastApiCalled, h]
  · intro o r h
    simp [enrichLastApiCalled, h]
  · intro o r h
    simp [enrichLastApiCalled, h]
  · intro o rs h
    rw [runSleepCount, List.length_eq_zero, List.filter_eq_nil_iff]
    intro r hr
    have := h r hr
    simp only [anyLiveFetch, Bool.or_eq_false_iff] at this
    simp [this.2]

def allOnOpts : EnrichOpts := ⟨false, true, true, true, true, true⟩

def onlyReadingFetch : FetchReports :=
  ⟨true, false, false, false, false, false, false, false, false, false⟩

/-- C8 counterexample: with every feature on and online, a record whose
only live fetch happened in the reading-validation `JishoAPI.get_reading`
call ends with the flag false (and no delay), refuting the claimed
"flag iff some live fetch". -/
theorem c8_counterexample :
    anyLiveFetch allOnOpts onlyReadingFetch = true
      ∧ enrichLastApiCalled allOnOpts onlyReadingFetch = false
      ∧ runSleepCount allOnOpts [onlyReadingFetch] = 0 :=
  ⟨by decide, by decide, by decide⟩

/-- C8 witness: a pitch fetch alone sets the flag. -/
theorem c8_witness :
    enrichLastApiCalled allOnOpts
      ⟨false, false, false, false, false, false, false, true, false, false⟩ = true :=
  c8_fetch_accounting.2.1 allOnOpts
    ⟨false, false, false, false, false, false, false, true, false, false⟩ (by decide)

/-! ## Furigana generation (main.py `FuriganaGenerator`) -/


/-- `FuriganaGenerator._is_kanji` (main.py line 1276). -/
def isKanji (c : Char) : Bool := 0x4E00 ≤ c.toNat && c.toNat ≤ 0x9FFF
/-- `FuriganaGenerator._is_hiragana` (main.py line 1280). -/
def isHiragana (c : Char) : Bool := 0x3040 ≤ c.toNat && c.toNat ≤ 0x309F
/-- `FuriganaGenerator._is_katakana` (main.py line 1284). -/
def isKatakana (c : Char) : Bool := 0x30A0 ≤ c.toNat && c.toNat ≤ 0x30FF

/-- `FuriganaGenerator._katakana_to_hiragana` (main.py lines 1301-1310):
katakana code points are shifted down by 0x60. -/
def kataToHira (text : List Char) : List Char :=
  text.map (fun c => if isKatakana c then Char.ofNat (c.toNat - 0x60) else c)

/-- Run builder of `generate` (main.py lines 1411-1430): extend the current
run while the kanji-ness matches, else emit it and start a new run. -/
def segLoop : List Char → List Char → Bool → List (List Char × Bool)
  | [], cur, ck => [(cur, ck)]
  | c :: rest, cur, ck =>
    if isKanji c = ck then segLoop rest (cur ++ [c]) ck
    else (cur, ck) :: segLoop rest [c] (isKanji c)

/-- The segment list of `generate`: maximal runs of (text, is_kanji). -/
def segmentsOf : List Char → List (List Char × Bool)
  | [] => []
  | c :: rest => segLoop rest [c] (isKanji c)

/-- Python `hay.find(needle, start)` as an Option: the least index at or
after `start` where `needle` occurs. -/
def findSub (hay needle : List Char) (start : Nat) : Option Nat :=
  (List.range (hay.length + 1)).find? (fun i => start ≤ i && needle.isPrefixOf (hay.drop i))

/-- The `<ruby>txt<rt>rt</rt></ruby>` markup emitted by `generate`. -/
def rubyWrap (txt rt : List Char) : List Char :=
  "<ruby>".toList ++ txt ++ "<rt>".toList ++ rt ++ "</rt></ruby>".toList

/-- `FuriganaGenerator._validate_reading` (main.py lines 1323-1384).
`fullReading` models the pykakasi transliteration `_get_full_reading`,
fixed for the run.  (The local `word_kana_parts_hira` of the source is dead
code and is omitted.) -/
def validateReading (fullReading : List Char → List Char) (word reading : List Char) :
    List Char :=
  if word = [] ∨ reading = [] then reading
  else
    let wordKanji := (word.filter isKanji).length
    let wordKana := (word.filter (fun c => isHiragana c || isKatakana c)).length
    if wordKanji = 0 then reading
    else
      let readingNorm := kataToHira reading
      let wordKanaParts := word.filter isHiragana
      if wordKanaParts ≠ [] ∧ listHasInfix readingNorm wordKanaParts then reading
      else
        let minExpected := wordKanji + wordKana
        if readingNorm.length < minExpected then
          let full := fullReading word
          if full ≠ [] ∧ full.length > readingNorm.length then
            let kataPrefix := word.takeWhile (fun c => isKatakana c || c = 'ー')
            if kataPrefix ≠ [] then kataPrefix ++ full.drop kataPrefix.length
            else full
          else reading
        else reading

/-- The segment walk of `generate` (main.py lines 1442-1489): kanji runs
are appended and re-wrapped once the following kana run is located in the
normalized reading; a kana run that cannot be located from the cursor is
appended verbatim without moving the cursor. -/
def alignGo (segments : List (List Char × Bool)) (reading readingHira : List Char) :
    List (List Char × Bool) → Nat → List Char → Nat → List Char × Nat
  | [], _, result, pos => (result, pos)
  | (seg, isK) :: rest, i, result, pos =>
    if isK then alignGo segments reading readingHira rest (i + 1) (result ++ seg) pos
    else
      let segHira := kataToHira seg
      match findSub readingHira segHira pos with
      | some mp =>
        let result1 :=
          if mp > pos then
            let kanjiReading := (reading.drop pos).take (mp - pos)
            let kanjiSegs := (((segments.take i).reverse.takeWhile
              (fun s => s.2)).reverse).map (fun s => s.1)
            if kanjiSegs ≠ [] ∧ kanjiReading ≠ [] then
              let kanjiText := kanjiSegs.flatten
              let r0 := if kanjiText.isSuffixOf result then
                  result.take (result.length - kanjiText.length)
                else result
              r0 ++ rubyWrap kanjiText kanjiReading
            else result
          else result
        alignGo segments reading readingHira rest (i + 1) (result1 ++ seg)
          (mp + segHira.length)
      | none => alignGo segments reading readingHira rest (i + 1) (result ++ seg) pos

/-- Trailing-kanji handling of `generate` (main.py lines 1491-1499): a
final kanji run consumes the remaining reading when any is left. -/
def alignTrailing (segments : List (List Char × Bool)) (reading : List Char)
    (res : List Char × Nat) : List Char :=
  match segments.getLast? with
  | some (seg, true) =>
    if res.2 < reading.length then
      if seg.isSuffixOf res.1 then
        res.1.take (res.1.length - seg.length) ++ rubyWrap seg (reading.drop res.2)
      else res.1
    else res.1
  | _ => res.1

/-- The full per-run assembly: the walk followed by trailing handling. -/
def assembleRuns (word reading : List Char) : List Char :=
  let segments := segmentsOf word
  let readingHira := kataToHira reading
  alignTrailing segments reading (alignGo segments reading readingHira segments 0 [] 0)

/-- `FuriganaGenerator.generate` (main.py lines 1386-1504). -/
def generate (fullReading : List Char → List Char) (word reading : List Char) :
    List Char :=
  if ¬ word.any isKanji then word
  else
    let reading1 := validateReading fullReading word reading
    if word = reading1 then word
    else
      let reading2 := if reading1 = [] then fullReading word else reading1
      if reading2 = [] then word
      else
        let segments := segmentsOf word
        if segments.length = 1 ∧ segments.headI.2 = true then rubyWrap word reading2
        else
          let res := assembleRuns word reading2
          if res = [] ∨ res = word then rubyWrap word reading2 else res


/-- C7 counterexample: for word 上あ下い with reading うえあした, the kana
run い cannot be located at or after the cursor (position 3), yet generate
returns the partially aligned "<ruby>上<rt>うえ</rt></ruby>あ下い", not the
whole-word wrap — refuting "abandons per-run alignment entirely". -/
theorem c7_counterexample :
    generate (fun _ => []) "上あ下い".toList "うえあした".toList =
        ("<ruby>上<rt>うえ</rt></ruby>あ下い").toList
      ∧ findSub (kataToHira "うえあした".toList) (kataToHira "い".toList) 3 = none
      ∧ generate (fun _ => []) "上あ下い".toList "うえあした".toList ≠
          rubyWrap "上あ下い".toList "うえあした".toList :=
  ⟨by decide, by decide, by decide⟩

/-- C7 (amended): an unlocatable non-kanji run is emitted verbatim and
alignment continues; under the pipeline guards (word has kanji, the
validated reading is nonempty and differs from the word, and the word is
not one single kanji run), generate falls back to wrapping the whole word
with the whole reading exactly when the per-run assembly is empty or
reproduces the word unchanged. -/
theorem c7_fallback_characterization (fullReading : List Char → List Char)
    (word reading r1 : List Char)
    (hk : word.any isKanji = true)
    (hr1 : validateReading fullReading word reading = r1)
    (hne : r1 ≠ word) (hnil : r1 ≠ [])
    (hseg : ¬ ((segmentsOf word).length = 1 ∧ (segmentsOf word).headI.2 = true)) :
    generate fullReading word reading =
      (if assembleRuns word r1 = [] ∨ assembleRuns word r1 = word
       then rubyWrap word r1 else assembleRuns word r1) := by
  unfold generate
  rw [if_neg (by simp [hk])]
  rw [hr1]
  rw [if_neg (fun h => hne h.symm)]
  rw [if_neg hnil]
  rw [if_neg hnil]
  rw [if_neg hseg]

/-- C7 witness: the characterization applied at the concrete input. -/
theorem c7_witness :
    generate (fun _ => []) "上あ下い".toList "うえあした".toList =
      (if assembleRuns "上あ下い".toList "うえあした".toList = []
          ∨ assembleRuns "上あ下い".toList "うえあした".toList = "上あ下い".toList
       then rubyWrap "上あ下い".toList "うえあした".toList
       else assembleRuns "上あ下い".toList "うえあした".toList) :=
  c7_fallback_characterization (fun _ => []) "上あ下い".toList "うえあした".toList
    "うえあした".toList (by decide) (by decide) (by decide) (by decide) (by decide)

end JA
